import Mathlib

/-!
Verification of the portfolio-aggregation pipeline of the waletapp repository.

The pipeline under study is `fetchTokensAndPrices` in `src/App.tsx`: it fetches
the native ETH balance and price, fetches the ERC-20 balances from the indexing
service, drops tokens whose trimmed name starts with "YT " or "PT ", fetches a
USD price per surviving token (each fetch individually guarded by try/catch),
computes per-token totals, drops entries below the 0.00002 USD floor, and
stores the final list (native entry first when present).

Modelling conventions:
* JavaScript numbers are embedded as exact rationals extended with a NaN
  element (`JSNum`); binary floating-point representation error is not
  modelled.  NaN propagates through arithmetic and makes every comparison
  false, as in JavaScript.
* Network effects are an explicit environment (`Env`) giving the outcome of
  every upstream request; a thrown/failed request is `Fetch.fail`.
* The React state cells touched by the pipeline (`tokens`, `error`,
  `loading`) are an explicit `AppState` record threaded through the run.
-/

/-- A JavaScript number: either NaN or an exact rational value. -/
inductive JSNum where
  | nan : JSNum
  | num : ℚ → JSNum
deriving DecidableEq, Repr

namespace JSNum

/-- JavaScript multiplication: NaN is absorbing. -/
def jmul : JSNum → JSNum → JSNum
  | num a, num b => num (a * b)
  | _, _ => nan

/-- JavaScript division by `10 ** d` (the decimals scaling in the source);
NaN propagates. -/
def jdivPow10 : JSNum → ℕ → JSNum
  | num a, d => num (a / 10 ^ d)
  | nan, _ => nan

/-- The JavaScript comparison `x >= c` against a rational constant: false
whenever `x` is NaN. -/
def jge : JSNum → ℚ → Bool
  | num a, c => decide (c ≤ a)
  | nan, _ => false

/-- The JavaScript comparison `x > c` against a rational constant: false
whenever `x` is NaN. -/
def jgt : JSNum → ℚ → Bool
  | num a, c => decide (c < a)
  | nan, _ => false

end JSNum

/-- Whitespace trimming of a character list from both ends, the model of
JavaScript `String.prototype.trim` as the source applies it to token names. -/
def trimChars (s : List Char) : List Char :=
  ((s.dropWhile Char.isWhitespace).reverse.dropWhile Char.isWhitespace).reverse

/-- `startsWithChars s p` models JavaScript `s.startsWith(p)` on character
lists. -/
def startsWithChars : List Char → List Char → Bool
  | _, [] => true
  | [], _ :: _ => false
  | c :: cs, p :: ps => c = p && startsWithChars cs ps

/-- Value of a list of decimal digit characters (most significant first). -/
def digitsVal (ds : List Char) : ℕ :=
  ds.foldl (fun acc c => 10 * acc + (c.toNat - 48)) 0

/-- Model of the JavaScript `parseFloat` builtin restricted to the shapes the
pipeline feeds it (raw ERC-20 balance strings): the longest leading run of
decimal digits, optionally followed by `.` and further digits, is read; a
string starting with no digit yields NaN.  Signs, exponents and leading
whitespace — which raw balances never carry — are not modelled. -/
def parseFloat (s : String) : JSNum :=
  let ds := s.data.takeWhile Char.isDigit
  if ds.isEmpty then JSNum.nan
  else
    match s.data.drop ds.length with
    | '.' :: r =>
      let fs := r.takeWhile Char.isDigit
      JSNum.num ((digitsVal ds : ℚ) + (digitsVal fs : ℚ) / 10 ^ fs.length)
    | _ => JSNum.num (digitsVal ds)

/-- Decimal digits of a natural number, most significant first, via explicit
fuel so the definition reduces inside the kernel. -/
def natDigitsAux : ℕ → ℕ → List Char → List Char
  | 0, _, acc => acc
  | fuel + 1, n, acc =>
    let d := Char.ofNat (48 + n % 10)
    if n < 10 then d :: acc else natDigitsAux fuel (n / 10) (d :: acc)

/-- Decimal rendering of a natural number. -/
def natToString (n : ℕ) : String :=
  ⟨natDigitsAux (n + 1) n []⟩

/-- Left-pad a digit list with zeros to 4 characters. -/
def pad4 (ds : List Char) : List Char :=
  List.replicate (4 - ds.length) '0' ++ ds

/-- Model of JavaScript `x.toFixed(4)` on the exact rational value: the
nearest 4-fractional-digit decimal, ties towards the larger candidate
(ECMA-262 Number.prototype.toFixed), rendered with exactly four fractional
digits; `NaN.toFixed(4)` is `"NaN"`. -/
def toFixed4 : JSNum → String
  | JSNum.nan => "NaN"
  | JSNum.num q =>
    let n : ℤ := ⌊q * 10000 + 1 / 2⌋
    let a := n.natAbs
    let body := natToString (a / 10000) ++ "." ++ String.mk (pad4 (natDigitsAux (a % 10000 + 1) (a % 10000) []))
    if n < 0 then "-" ++ body else body

/-- A raw ERC-20 balance row as returned by the indexing service
(`GET /{address}/erc20`): `none` in `name`/`symbol` models a null or absent
field. -/
structure RawToken where
  token_address : String
  name : Option String
  symbol : Option String
  balance : String
  decimals : ℕ
deriving DecidableEq, Repr

/-- The `TokenInfo` record the source stores per displayed asset; `balance`
holds the `toFixed(4)` string exactly as the code builds it. -/
structure TokenInfo where
  name : String
  symbol : String
  balance : String
  price : ℚ
  total : JSNum
deriving DecidableEq, Repr

/-- JavaScript `x || d` on an optional string field (`token.name || "Unknown"`):
a null, undefined or empty string falls back to the default. -/
def strOr (x : Option String) (d : String) : String :=
  match x with
  | none => d
  | some s => if s = "" then d else s

/-- Outcome of one upstream network request: a parsed response, or a thrown
error (timeout, non-2xx, malformed body). -/
inductive Fetch (α : Type) where
  | ok : α → Fetch α
  | fail : Fetch α
deriving DecidableEq, Repr

/-- The upstream environment of one aggregation run: outcomes of the native
balance read, the native (CoinGecko) price request — `ok none` models a body
whose `usd` field is missing —, the token-balance listing, and the per-token
Moralis price request keyed by contract address (`ok none` models a body
missing `usdPrice`). -/
structure Env where
  ethBalance : Fetch ℚ
  ethPrice : Fetch (Option ℚ)
  tokenBalances : Fetch (List RawToken)
  tokenPrice : String → Fetch (Option ℚ)

/-- The React state cells `fetchTokensAndPrices` touches. -/
structure AppState where
  tokens : List TokenInfo
  error : Option String
  loading : Bool
deriving DecidableEq, Repr

/-- One network request the pipeline issues, with the credential it carries
where the source attaches one. -/
inductive Request where
  | getNativeBalance : Request
  | getNativePrice : Request
  | getTokenBalances : Option String → Request
  | getTokenPrice : Option String → String → Request
deriving DecidableEq, Repr

/-- The 0.00002 USD value floor from the source. -/
def minTotal : ℚ := 2 / 100000

/-- The pre-pricing name filter of `src/App.tsx` (`filteredTokens`): keep a
token unless its name is present and, after trimming, starts with `"YT "` or
`"PT "`; optional chaining keeps every nameless token. -/
def keepByName (t : RawToken) : Bool :=
  match t.name with
  | none => true
  | some s =>
    !(startsWithChars (trimChars s.data) "YT ".data) &&
    !(startsWithChars (trimChars s.data) "PT ".data)

/-- The body of the `filteredTokens.map` in `src/App.tsx` (`tokensWithPrices`):
price one token.  On a successful price response the price is
`usdPrice || 0`, the quantity is `parseFloat(balance) / 10 ** decimals` and
the total is their product; on a thrown price request the entry is built with
price 0 and total 0. -/
def priceOne (env : Env) (t : RawToken) : TokenInfo :=
  let quantity := JSNum.jdivPow10 (parseFloat t.balance) t.decimals
  match env.tokenPrice t.token_address with
  | Fetch.ok resp =>
    let price := resp.getD 0
    { name := strOr t.name "Unknown"
      symbol := strOr t.symbol "N/A"
      balance := toFixed4 quantity
      price := price
      total := JSNum.jmul quantity (JSNum.num price) }
  | Fetch.fail =>
    { name := strOr t.name "Unknown"
      symbol := strOr t.symbol "N/A"
      balance := toFixed4 quantity
      price := 0
      total := JSNum.num 0 }

/-- The native entry `src/App.tsx` builds (`ethToken`): included only when
`ethBalance * ethPrice` is strictly above the floor. -/
def mkEthToken (ethBalance ethPrice : ℚ) : Option TokenInfo :=
  let ethTotal := ethBalance * ethPrice
  if minTotal < ethTotal then
    some { name := "Ethereum"
           symbol := "ETH"
           balance := toFixed4 (JSNum.num ethBalance)
           price := ethPrice
           total := JSNum.num ethTotal }
  else none

/-- The error message the catch-all of `fetchTokensAndPrices` stores. -/
def fetchFailMsg : String := "Failed to fetch tokens or prices."

/-- Shallow embedding of `fetchTokensAndPrices` from `src/App.tsx`, returning
the final state together with the list of network requests issued, in order.
A failure of the native-balance read, the native price request or the
token-balance listing reaches the surrounding catch, which records
`fetchFailMsg` and leaves `tokens` untouched; per-token price failures are
absorbed by `priceOne`.  `loading` is reset in the `finally` clause on every
path. -/
def fetchTokensAndPrices (key : Option String) (env : Env) (s : AppState) :
    AppState × List Request :=
  match env.ethBalance with
  | Fetch.fail =>
    ({ s with error := some fetchFailMsg, loading := false },
     [Request.getNativeBalance])
  | Fetch.ok ethBalance =>
    match env.ethPrice with
    | Fetch.fail =>
      ({ s with error := some fetchFailMsg, loading := false },
       [Request.getNativeBalance, Request.getNativePrice])
    | Fetch.ok usd =>
      let ethPrice := usd.getD 0
      let ethToken := mkEthToken ethBalance ethPrice
      match env.tokenBalances with
      | Fetch.fail =>
        ({ s with error := some fetchFailMsg, loading := false },
         [Request.getNativeBalance, Request.getNativePrice,
          Request.getTokenBalances key])
      | Fetch.ok raw =>
        let filteredTokens := raw.filter keepByName
        let tokensWithPrices := filteredTokens.map (priceOne env)
        let filteredTokensByTotal :=
          tokensWithPrices.filter (fun t => JSNum.jge t.total minTotal)
        let final :=
          match ethToken with
          | some e => e :: filteredTokensByTotal
          | none => filteredTokensByTotal
        ({ tokens := final, error := s.error, loading := false },
         [Request.getNativeBalance, Request.getNativePrice,
          Request.getTokenBalances key] ++
           filteredTokens.map (fun t => Request.getTokenPrice key t.token_address))

/-- Shallow embedding of the older `fetchTokens` variant (the balances-only
pipeline in the unnamed source file): it checks the Moralis API key up front
and, when the key is absent, records its error and issues no request at all. -/
def fetchTokensGuarded (key : Option String) (env : Env) (s : AppState) :
    AppState × List Request :=
  match key with
  | none =>
    ({ s with error := some "Moralis API key is not set." }, [])
  | some _ =>
    match env.tokenBalances with
    | Fetch.fail => ({ s with error := some "Failed to fetch tokens" },
                     [Request.getTokenBalances key])
    | Fetch.ok raw =>
      ({ s with
          tokens := raw.map (fun t =>
            { name := strOr t.name "Unknown"
              symbol := strOr t.symbol "N/A"
              balance := toFixed4 (JSNum.jdivPow10 (parseFloat t.balance) t.decimals)
              price := 0
              total := JSNum.num 0 })
          error := none },
       [Request.getTokenBalances key])

/-! ## Concrete inputs used by witnesses and counterexamples -/

/-- The initial React state: no tokens, no error, loading set by the caller. -/
def initialState : AppState := { tokens := [], error := none, loading := true }

/-- Environment in which every upstream request throws. -/
def envAllFail : Env :=
  { ethBalance := Fetch.fail
    ethPrice := Fetch.fail
    tokenBalances := Fetch.fail
    tokenPrice := fun _ => Fetch.fail }

/-- Concrete raw USDC-like token: 500000 raw units at 6 decimals, so the
quantity is 0.5. -/
def tokUSDC : RawToken :=
  { token_address := "0xusdc", name := some "USD Coin", symbol := some "USDC",
    balance := "500000", decimals := 6 }

/-- Environment for the C3 witness: native balance 1 at price 1 USD, one raw
token priced at 1 USD. -/
def envC3 : Env :=
  { ethBalance := Fetch.ok 1
    ethPrice := Fetch.ok (some 1)
    tokenBalances := Fetch.ok [tokUSDC]
    tokenPrice := fun _ => Fetch.ok (some 1) }

/-- The native entry the C3 witness run builds. -/
def ethEntryW : TokenInfo :=
  { name := "Ethereum", symbol := "ETH", balance := toFixed4 (JSNum.num 1),
    price := 1, total := JSNum.num 1 }

/-- Raw token whose trimmed name starts with `"YT "`. -/
def tokYT : RawToken :=
  { token_address := "0xyt", name := some "YT Wrapped ETH",
    symbol := some "YTW", balance := "1000", decimals := 0 }

/-- Environment for the C5 witness: one name-excluded and one kept token. -/
def envC5 : Env :=
  { ethBalance := Fetch.ok 1
    ethPrice := Fetch.ok (some 1)
    tokenBalances := Fetch.ok [tokYT, tokUSDC]
    tokenPrice := fun _ => Fetch.ok (some 1) }

/-- Raw token worth exactly the 0.00002 USD floor once priced at 0.00001. -/
def tokFloor : RawToken :=
  { token_address := "0xfloor", name := some "Floor", symbol := some "FLR",
    balance := "2", decimals := 0 }

/-- Environment for the C1 witness: zero native balance and one token whose
total lands exactly on the floor. -/
def envFloor : Env :=
  { ethBalance := Fetch.ok 0
    ethPrice := Fetch.ok (some 1)
    tokenBalances := Fetch.ok [tokFloor]
    tokenPrice := fun _ => Fetch.ok (some (1 / 100000)) }

/-- Environment whose native total is exactly the floor (balance 1, price
0.00002 USD) with an empty token list. -/
def envEthAtFloor : Env :=
  { ethBalance := Fetch.ok 1
    ethPrice := Fetch.ok (some minTotal)
    tokenBalances := Fetch.ok []
    tokenPrice := fun _ => Fetch.fail }

/-- Environment whose native price request throws while everything else
succeeds. -/
def envEthPriceFail : Env :=
  { ethBalance := Fetch.ok 1
    ethPrice := Fetch.fail
    tokenBalances := Fetch.ok [tokUSDC]
    tokenPrice := fun _ => Fetch.ok (some 1) }

/-- Raw token whose price request will throw. -/
def tokNoPrice : RawToken :=
  { token_address := "0xnoprice", name := some "No Price",
    symbol := some "NOP", balance := "7", decimals := 0 }

/-- Environment for the C2 witness: the USDC-like token is priced, the other
token's price request throws. -/
def envOneFail : Env :=
  { ethBalance := Fetch.ok 0
    ethPrice := Fetch.ok (some 1)
    tokenBalances := Fetch.ok [tokUSDC, tokNoPrice]
    tokenPrice := fun a => if a = "0xusdc" then Fetch.ok (some 1) else Fetch.fail }

/-- Raw token whose balance string parses as no number at all. -/
def tokBadBalance : RawToken :=
  { token_address := "0xbad", name := some "Broken", symbol := some "BRK",
    balance := "notanumber", decimals := 18 }

/-- Environment for C6: the malformed-balance token is listed and its price
request succeeds. -/
def envBadBalance : Env :=
  { ethBalance := Fetch.ok 0
    ethPrice := Fetch.ok (some 1)
    tokenBalances := Fetch.ok [tokBadBalance]
    tokenPrice := fun _ => Fetch.ok (some 1) }

/-- Raw token whose quantity 0.00123456 has more than four fractional
digits. -/
def tokManyDigits : RawToken :=
  { token_address := "0xmany", name := some "Many Digits", symbol := some "MD",
    balance := "123456", decimals := 8 }

/-- Environment for C7: the many-digit token is listed, priced at 1 USD. -/
def envManyDigits : Env :=
  { ethBalance := Fetch.ok 0
    ethPrice := Fetch.ok (some 1)
    tokenBalances := Fetch.ok [tokManyDigits]
    tokenPrice := fun _ => Fetch.ok (some 1) }

/-- Raw token with no name field but a real symbol. -/
def tokNoName : RawToken :=
  { token_address := "0xnn", name := none, symbol := some "FOO",
    balance := "5", decimals := 0 }

/-- Environment for C9: only the nameless token is listed, priced at
1 USD. -/
def envNoName : Env :=
  { ethBalance := Fetch.ok 0
    ethPrice := Fetch.ok (some 1)
    tokenBalances := Fetch.ok [tokNoName]
    tokenPrice := fun _ => Fetch.ok (some 1) }

/-! ## General lemmas about the pipeline -/

/-- Shape of a run in which the three mandatory fetches succeed. -/
lemma fetchTokensAndPrices_ok (key : Option String) (env : Env) (s : AppState)
    {b : ℚ} {p : Option ℚ} {raw : List RawToken}
    (hb : env.ethBalance = Fetch.ok b) (hp : env.ethPrice = Fetch.ok p)
    (ht : env.tokenBalances = Fetch.ok raw) :
    fetchTokensAndPrices key env s =
      ({ tokens :=
          (mkEthToken b (p.getD 0)).toList ++
            ((raw.filter keepByName).map (priceOne env)).filter
              (fun t => JSNum.jge t.total minTotal)
         error := s.error
         loading := false },
       [Request.getNativeBalance, Request.getNativePrice,
        Request.getTokenBalances key] ++
         (raw.filter keepByName).map
           (fun t => Request.getTokenPrice key t.token_address)) := by
  unfold fetchTokensAndPrices
  rw [hb, hp, ht]
  cases h : mkEthToken b (p.getD 0) <;> simp [h]

/-! ## C10 -/

/-- C10: when any mandatory fetch of the run fails (native balance, native
price, or the token-balance listing), the stored token list is left exactly
as it was before the run; the failure path only records the error message
(and clears the loading flag). -/
theorem c10_tokens_unchanged_on_failure (key : Option String) (env : Env)
    (s : AppState)
    (h : env.ethBalance = Fetch.fail ∨ env.ethPrice = Fetch.fail ∨
      env.tokenBalances = Fetch.fail) :
    (fetchTokensAndPrices key env s).1.tokens = s.tokens ∧
    (fetchTokensAndPrices key env s).1.error = some fetchFailMsg := by
  unfold fetchTokensAndPrices
  rcases h with h | h | h
  · rw [h]; exact ⟨rfl, rfl⟩
  · cases hb : env.ethBalance with
    | fail => exact ⟨rfl, rfl⟩
    | ok b => rw [h]; exact ⟨rfl, rfl⟩
  · cases hb : env.ethBalance with
    | fail => exact ⟨rfl, rfl⟩
    | ok b =>
      cases hp : env.ethPrice with
      | fail => exact ⟨rfl, rfl⟩
      | ok p => rw [h]; exact ⟨rfl, rfl⟩

/-- Witness for C10 at a concrete failing environment and a non-empty prior
token list. -/
theorem c10_tokens_unchanged_on_failure_witness :
    (fetchTokensAndPrices (some "key") envAllFail
        { tokens := [{ name := "Old", symbol := "OLD", balance := "1.0000",
                       price := 1, total := JSNum.num 1 }]
          error := none, loading := true }).1.tokens =
      [{ name := "Old", symbol := "OLD", balance := "1.0000",
         price := 1, total := JSNum.num 1 }] :=
  (c10_tokens_unchanged_on_failure (some "key") envAllFail _
    (Or.inl rfl)).1

/-! ## C8 -/

/-- C8: the current pipeline has no credential guard.  With the API key
absent, `fetchTokensAndPrices` still starts: its first issued request is the
native-balance read, and whatever happens afterwards its recorded error is
either the prior one or the generic fetch-failure message — never a
missing-credential error.  By contrast the older `fetchTokens` variant checks
the key first and, when it is absent, issues no request at all and records
the dedicated missing-key message.  This establishes the divergence between
the code and the claim at the concrete input `key = none`. -/
theorem c8_aggregation_starts_without_credential (env : Env) (s : AppState) :
    ((fetchTokensAndPrices none env s).2.head? = some Request.getNativeBalance ∧
      (fetchTokensAndPrices none env s).2 ≠ []) ∧
    ((fetchTokensAndPrices none env s).1.error = s.error ∨
      (fetchTokensAndPrices none env s).1.error = some fetchFailMsg) ∧
    (fetchTokensGuarded none env s).2 = [] ∧
    (fetchTokensGuarded none env s).1.error =
      some "Moralis API key is not set." := by
  refine ⟨?_, ?_, rfl, rfl⟩
  · unfold fetchTokensAndPrices
    cases env.ethBalance with
    | fail => exact ⟨rfl, by simp⟩
    | ok b =>
      cases env.ethPrice with
      | fail => exact ⟨rfl, by simp⟩
      | ok p =>
        cases env.tokenBalances with
        | fail => exact ⟨rfl, by simp⟩
        | ok raw =>
          cases h : mkEthToken b (p.getD 0) <;> simp [h]
  · unfold fetchTokensAndPrices
    cases env.ethBalance with
    | fail => exact Or.inr rfl
    | ok b =>
      cases env.ethPrice with
      | fail => exact Or.inr rfl
      | ok p =>
        cases env.tokenBalances with
        | fail => exact Or.inr rfl
        | ok raw => cases h : mkEthToken b (p.getD 0) <;> simp [h]

/-! ## C3 -/

/-- C3: in a run whose mandatory fetches succeed and whose native asset
survives the value floor, the native entry is the first element of the stored
portfolio, and everything after it is the image under pricing of a sublist of
the raw token list exactly as the balance source returned it — filtering and
pricing never reorder tokens. -/
theorem c3_native_first_and_order (key : Option String) (env : Env)
    (s : AppState) {b : ℚ} {p : Option ℚ} {raw : List RawToken} {e : TokenInfo}
    (hb : env.ethBalance = Fetch.ok b) (hp : env.ethPrice = Fetch.ok p)
    (ht : env.tokenBalances = Fetch.ok raw)
    (he : mkEthToken b (p.getD 0) = some e) :
    ∃ rest : List TokenInfo,
      (fetchTokensAndPrices key env s).1.tokens = e :: rest ∧
      ∃ sub : List RawToken, sub.Sublist raw ∧ rest = sub.map (priceOne env) := by
  rw [fetchTokensAndPrices_ok key env s hb hp ht]
  refine ⟨_, by rw [he]; rfl, ?_⟩
  refine ⟨(raw.filter keepByName).filter
    (fun t => JSNum.jge (priceOne env t).total minTotal), ?_, ?_⟩
  · exact (List.filter_sublist _).trans (List.filter_sublist raw)
  · rw [List.filter_map]
    rfl

/-- Witness for C3: in the concrete run the native entry comes first and the
tail is the priced image of a sublist of the returned raw tokens. -/
theorem c3_native_first_and_order_witness :
    ∃ rest : List TokenInfo,
      (fetchTokensAndPrices (some "k") envC3 initialState).1.tokens =
        ethEntryW :: rest ∧
      ∃ sub : List RawToken, sub.Sublist [tokUSDC] ∧
        rest = sub.map (priceOne envC3) :=
  c3_native_first_and_order (some "k") envC3 initialState rfl rfl rfl
    (by unfold mkEthToken ethEntryW minTotal; norm_num)

/-! ## C5 -/

/-- C5: a raw token is rejected by the pre-pricing filter exactly when its
name is present and, after trimming leading and trailing whitespace, starts
with `"YT "` or `"PT "` (case-sensitive); every other raw balance passes.
Moreover the rejection happens before pricing: the price requests a
successful run issues are exactly one per token that passed the name filter,
so no price fetch is ever issued for a rejected token. -/
theorem c5_name_rule_applied_before_pricing (key : Option String) (env : Env)
    (s : AppState) {b : ℚ} {p : Option ℚ} {raw : List RawToken}
    (hb : env.ethBalance = Fetch.ok b) (hp : env.ethPrice = Fetch.ok p)
    (ht : env.tokenBalances = Fetch.ok raw) :
    (∀ t : RawToken, keepByName t = false ↔
      ∃ n, t.name = some n ∧
        (startsWithChars (trimChars n.data) "YT ".data = true ∨
         startsWithChars (trimChars n.data) "PT ".data = true)) ∧
    (fetchTokensAndPrices key env s).2 =
      [Request.getNativeBalance, Request.getNativePrice,
       Request.getTokenBalances key] ++
        (raw.filter keepByName).map
          (fun t => Request.getTokenPrice key t.token_address) := by
  constructor
  · intro t
    unfold keepByName
    cases h : t.name with
    | none => simp
    | some n =>
      simp only [Bool.and_eq_false_iff, Bool.not_eq_false', Option.some.injEq]
      constructor
      · rintro (h1 | h1)
        · exact ⟨n, rfl, Or.inl h1⟩
        · exact ⟨n, rfl, Or.inr h1⟩
      · rintro ⟨n', hn', h1 | h1⟩
        · exact Or.inl (hn' ▸ h1)
        · exact Or.inr (hn' ▸ h1)
  · rw [fetchTokensAndPrices_ok key env s hb hp ht]

/-- Witness for C5: in the concrete run with a `"YT "`-named token and a
normal token, the issued requests contain a price fetch for the normal token
only — the excluded token is dropped before pricing. -/
theorem c5_name_rule_applied_before_pricing_witness :
    (fetchTokensAndPrices (some "k") envC5 initialState).2 =
      [Request.getNativeBalance, Request.getNativePrice,
       Request.getTokenBalances (some "k"),
       Request.getTokenPrice (some "k") "0xusdc"] :=
  ((c5_name_rule_applied_before_pricing (some "k") envC5 initialState
      rfl rfl rfl).2).trans (by decide)

/-! ## C1 -/

/-- C1 (amended): in a successful run, a priced entry is in the final
portfolio exactly when it is the native entry (which requires
`total > 0.00002`, strictly) or it is a priced token whose total passes the
`>=` comparison against 0.00002 (so NaN totals are dropped).  The floor is
asymmetric: a token whose total is exactly 0.00002 passes the token filter,
while a native total of exactly 0.00002 produces no native entry at all. -/
theorem c1_value_floor_membership (key : Option String) (env : Env)
    (s : AppState) {b : ℚ} {p : Option ℚ} {raw : List RawToken}
    (hb : env.ethBalance = Fetch.ok b) (hp : env.ethPrice = Fetch.ok p)
    (ht : env.tokenBalances = Fetch.ok raw) :
    (∀ t : TokenInfo, t ∈ (fetchTokensAndPrices key env s).1.tokens ↔
      (mkEthToken b (p.getD 0) = some t ∨
        (t ∈ (raw.filter keepByName).map (priceOne env) ∧
          JSNum.jge t.total minTotal = true))) ∧
    JSNum.jge (JSNum.num minTotal) minTotal = true ∧
    (∀ b' p' : ℚ, b' * p' = minTotal → mkEthToken b' p' = none) := by
  refine ⟨?_, ?_, ?_⟩
  · intro t
    rw [fetchTokensAndPrices_ok key env s hb hp ht]
    simp [List.mem_filter]
  · simp [JSNum.jge]
  · intro b' p' h
    unfold mkEthToken
    rw [h]
    simp

/-- Witness for C1: a token whose total is exactly the 0.00002 floor is kept
in the final portfolio. -/
theorem c1_value_floor_membership_witness :
    priceOne envFloor tokFloor ∈
      (fetchTokensAndPrices (some "k") envFloor initialState).1.tokens := by
  have hpf : parseFloat "2" = JSNum.num 2 := by decide
  refine ((c1_value_floor_membership (some "k") envFloor initialState rfl rfl
      rfl).1 _).mpr (Or.inr ⟨List.mem_map_of_mem _ (by decide), ?_⟩)
  show JSNum.jge (priceOne envFloor tokFloor).total minTotal = true
  simp [priceOne, envFloor, tokFloor, hpf, JSNum.jdivPow10, JSNum.jmul,
    JSNum.jge, minTotal]
  norm_num

/-- Counterexample to C1 as stated: in the concrete run whose native asset
has `totalValueUsd` exactly 0.00002 (balance 1, price 0.00002, so the claim
says the asset is kept), the final portfolio is empty — the source includes
the native asset only when `ethTotal > 0.00002` holds strictly. -/
theorem c1_native_at_floor_excluded :
    (1 : ℚ) * ((some minTotal).getD 0) = minTotal ∧
    (fetchTokensAndPrices (some "k") envEthAtFloor initialState).1.tokens
      = [] := by
  refine ⟨by simp, ?_⟩
  rw [fetchTokensAndPrices_ok (some "k") envEthAtFloor initialState
    rfl rfl rfl]
  simp [mkEthToken]

/-! ## C2 -/

/-- The value floor is strictly positive. -/
lemma minTotal_pos : 0 < minTotal := by norm_num [minTotal]

/-- A native entry exists only for a total strictly above the floor, and then
it is exactly the record the source builds. -/
lemma mkEthToken_eq_some (b p : ℚ) (e : TokenInfo)
    (h : mkEthToken b p = some e) :
    minTotal < b * p ∧
      e = { name := "Ethereum", symbol := "ETH",
            balance := toFixed4 (JSNum.num b), price := p,
            total := JSNum.num (b * p) } := by
  unfold mkEthToken at h
  simp only [] at h
  split at h
  next hlt => injection h with h'; exact ⟨hlt, h'.symm⟩
  next hlt => exact Option.noConfusion h

/-- C2 (amended): in a run whose mandatory fetches succeed, per-token price
failures never make the aggregation fail — the error cell is untouched no
matter what the per-token price oracle does; a token whose price request
throws gets `price = 0` and `total = 0` and its entry is absent from the
final portfolio; and each token's entry depends only on that token's own
price response, so one asset's failure leaves every other asset's result
unchanged.  (For the native coin this isolation does not hold — see the
counterexample — so the claim is amended to cover tokens only.) -/
theorem c2_token_price_failure_isolated (key : Option String) (env : Env)
    (s : AppState) {b : ℚ} {p : Option ℚ} {raw : List RawToken}
    (hb : env.ethBalance = Fetch.ok b) (hp : env.ethPrice = Fetch.ok p)
    (ht : env.tokenBalances = Fetch.ok raw) :
    (fetchTokensAndPrices key env s).1.error = s.error ∧
    (∀ t : RawToken, env.tokenPrice t.token_address = Fetch.fail →
      (priceOne env t).price = 0 ∧ (priceOne env t).total = JSNum.num 0 ∧
      priceOne env t ∉ (fetchTokensAndPrices key env s).1.tokens) ∧
    (∀ env' : Env, ∀ t : RawToken,
      env'.tokenPrice t.token_address = env.tokenPrice t.token_address →
      priceOne env' t = priceOne env t) := by
  refine ⟨?_, ?_, ?_⟩
  · rw [fetchTokensAndPrices_ok key env s hb hp ht]
  · intro t hfail
    have hp0 : (priceOne env t).price = 0 := by unfold priceOne; rw [hfail]
    have ht0 : (priceOne env t).total = JSNum.num 0 := by
      unfold priceOne; rw [hfail]
    refine ⟨hp0, ht0, ?_⟩
    rw [fetchTokensAndPrices_ok key env s hb hp ht]
    intro hmem
    rcases List.mem_append.mp hmem with hmem | hmem
    · obtain ⟨hlt, he⟩ := mkEthToken_eq_some _ _ _
        (Option.mem_def.mp (Option.mem_toList.mp hmem))
      have htot := congrArg TokenInfo.total he
      rw [ht0] at htot
      injection htot with h0
      rw [← h0] at hlt
      norm_num [minTotal] at hlt
    · have hkeep := (List.mem_filter.mp hmem).2
      rw [ht0] at hkeep
      norm_num [JSNum.jge, minTotal] at hkeep
  · intro env' t h
    unfold priceOne
    rw [h]

/-- Witness for C2 at a concrete run: the token whose price request throws
gets a zero total and is absent from the final portfolio. -/
theorem c2_token_price_failure_isolated_witness :
    (priceOne envOneFail tokNoPrice).total = JSNum.num 0 ∧
    priceOne envOneFail tokNoPrice ∉
      (fetchTokensAndPrices (some "k") envOneFail initialState).1.tokens := by
  have h := (c2_token_price_failure_isolated (some "k") envOneFail
    initialState rfl rfl rfl).2.1 tokNoPrice (by decide)
  exact ⟨h.2.1, h.2.2⟩

/-- Counterexample to C2 as stated: the native coin's price fetch is not
isolated — when it throws, the whole aggregation fails with the generic
error and no portfolio is produced, even though every token's price request
would have succeeded. -/
theorem c2_native_price_failure_aborts :
    envEthPriceFail.ethPrice = Fetch.fail ∧
    (fetchTokensAndPrices (some "k") envEthPriceFail initialState).1.error =
      some fetchFailMsg ∧
    (fetchTokensAndPrices (some "k") envEthPriceFail initialState).1.tokens
      = [] :=
  ⟨rfl, rfl, rfl⟩

/-! ## C4 -/

/-- C4: for a token whose raw balance parses, the entry's stored total is
exactly the normalized quantity `parseFloat(rawBalance) / 10^decimals`
multiplied by the entry's stored unit price — an exact local product in both
the priced and the failed-price branch, never a fetched total. -/
theorem c4_total_exact_product (env : Env) (t : RawToken) (q : ℚ)
    (hq : parseFloat t.balance = JSNum.num q) :
    (priceOne env t).total =
      JSNum.num ((q / 10 ^ t.decimals) * (priceOne env t).price) := by
  cases h : env.tokenPrice t.token_address with
  | ok r => simp [priceOne, h, hq, JSNum.jdivPow10, JSNum.jmul]
  | fail => simp [priceOne, h, hq, JSNum.jdivPow10, JSNum.jmul]

/-- Witness for C4 at the concrete USDC-like token: the stored total is the
exact product of 500000/10^6 with the stored price. -/
theorem c4_total_exact_product_witness :
    (priceOne envC3 tokUSDC).total =
      JSNum.num (((500000 : ℚ) / 10 ^ 6) * (priceOne envC3 tokUSDC).price) :=
  c4_total_exact_product envC3 tokUSDC 500000 (by decide)

/-! ## C6 -/

/-- C6: the code has no `MalformedBalance` path.  At the concrete token whose
raw balance `"notanumber"` parses as no number, `parseFloat` yields NaN, the
NaN propagates into the constructed entry (total NaN, displayed balance
string `"NaN"`), and the entry is then silently removed by the value filter
(`NaN >= 0.00002` is false); the run neither raises an error nor records any
warning.  The claim's required behavior — fail the asset with
`MalformedBalance` instead of carrying NaN through the pipeline — is what
the spec itself flags as the intended policy, so this is a code bug. -/
theorem c6_malformed_balance_nan_flow :
    parseFloat tokBadBalance.balance = JSNum.nan ∧
    (priceOne envBadBalance tokBadBalance).total = JSNum.nan ∧
    (priceOne envBadBalance tokBadBalance).balance = "NaN" ∧
    (fetchTokensAndPrices (some "k") envBadBalance initialState).1.tokens
      = [] ∧
    (fetchTokensAndPrices (some "k") envBadBalance initialState).1.error
      = none := by
  have htot : (priceOne envBadBalance tokBadBalance).total = JSNum.nan := by
    decide
  refine ⟨by decide, htot, by decide, ?_, ?_⟩
  · rw [fetchTokensAndPrices_ok (some "k") envBadBalance initialState
      rfl rfl rfl]
    have hfil : [tokBadBalance].filter keepByName = [tokBadBalance] := by
      decide
    norm_num [hfil, htot, JSNum.jge, mkEthToken, minTotal]
  · rw [fetchTokensAndPrices_ok (some "k") envBadBalance initialState
      rfl rfl rfl]
    rfl

/-! ## C7 -/

/-- C7 (amended): totals and unit prices are stored unrounded — the stored
total is the exact product of the unrounded normalized quantity with the
stored price — but the quantity itself is stored already rounded: the entry's
`balance` field is the `toFixed(4)` rendering of the normalized value,
applied at aggregation time, for tokens and for the native entry alike. -/
theorem c7_quantity_rounded_totals_exact (env : Env) (t : RawToken) (q : ℚ)
    (hq : parseFloat t.balance = JSNum.num q) :
    (priceOne env t).balance = toFixed4 (JSNum.num (q / 10 ^ t.decimals)) ∧
    (priceOne env t).total =
      JSNum.num ((q / 10 ^ t.decimals) * (priceOne env t).price) ∧
    (∀ b p : ℚ, ∀ e : TokenInfo, mkEthToken b p = some e →
      e.balance = toFixed4 (JSNum.num b) ∧ e.total = JSNum.num (b * p)) := by
  refine ⟨?_, ?_, ?_⟩
  · cases h : env.tokenPrice t.token_address with
    | ok r => simp [priceOne, h, hq, JSNum.jdivPow10]
    | fail => simp [priceOne, h, hq, JSNum.jdivPow10]
  · cases h : env.tokenPrice t.token_address with
    | ok r => simp [priceOne, h, hq, JSNum.jdivPow10, JSNum.jmul]
    | fail => simp [priceOne, h, hq, JSNum.jdivPow10, JSNum.jmul]
  · intro b p e he
    obtain ⟨-, he'⟩ := mkEthToken_eq_some b p e he
    rw [he']
    exact ⟨rfl, rfl⟩

/-- Witness for C7 at the concrete token with quantity 0.00123456: the stored
balance is the `toFixed(4)` rendering of that quantity and the stored total
is the exact unrounded product. -/
theorem c7_quantity_rounded_totals_exact_witness :
    (priceOne envManyDigits tokManyDigits).balance =
      toFixed4 (JSNum.num ((123456 : ℚ) / 10 ^ 8)) ∧
    (priceOne envManyDigits tokManyDigits).total =
      JSNum.num (((123456 : ℚ) / 10 ^ 8) *
        (priceOne envManyDigits tokManyDigits).price) :=
  ⟨(c7_quantity_rounded_totals_exact envManyDigits tokManyDigits 123456
      (by decide)).1,
   (c7_quantity_rounded_totals_exact envManyDigits tokManyDigits 123456
      (by decide)).2.1⟩

/-- Counterexample to C7 as stated: the quantity stored in the entry is NOT
the exact normalized value.  For raw balance `"123456"` with 8 decimals the
normalized quantity is 0.00123456, but the entry stores the string
`"0.0012"` — a value (0.0012) different from the normalized quantity, i.e.
4-decimal rounding was applied during aggregation, not at render time. -/
theorem c7_quantity_rounding_counterexample :
    (priceOne envManyDigits tokManyDigits).balance = "0.0012" ∧
    parseFloat (priceOne envManyDigits tokManyDigits).balance ≠
      JSNum.jdivPow10 (parseFloat tokManyDigits.balance)
        tokManyDigits.decimals := by
  have hq : parseFloat "123456" = JSNum.num 123456 := by decide
  have hbal : (priceOne envManyDigits tokManyDigits).balance
      = toFixed4 (JSNum.num (123456 / 10 ^ 8)) := by
    simp [priceOne, envManyDigits, tokManyDigits, hq, JSNum.jdivPow10]
  have hfl : (⌊(123456 / 10 ^ 8 : ℚ) * 10000 + 1 / 2⌋ : ℤ) = 12 := by
    norm_num
  have hfix : toFixed4 (JSNum.num (123456 / 10 ^ 8)) = "0.0012" := by
    simp only [toFixed4, hfl]
    decide
  refine ⟨hbal.trans hfix, ?_⟩
  rw [hbal.trans hfix]
  have h2 : parseFloat "0.0012" = JSNum.num (12 / 10 ^ 4) := by
    simp +decide [parseFloat, digitsVal]
  rw [h2, show tokManyDigits.balance = "123456" from rfl, hq]
  simp only [JSNum.jdivPow10, ne_eq, JSNum.num.injEq]
  norm_num [tokManyDigits]

/-! ## C9 -/

/-- C9 (amended): a raw balance with no name always passes the pre-pricing
name filter (the optional chaining makes both prefix tests false-y), and its
entry is built with name `"Unknown"`; its symbol, however, falls back to
`"N/A"` only when the symbol field is itself absent (or empty) — a nameless
token with a real symbol keeps that symbol. -/
theorem c9_nameless_token_kept (env : Env) (t : RawToken)
    (h : t.name = none) :
    keepByName t = true ∧
    (priceOne env t).name = "Unknown" ∧
    (t.symbol = none → (priceOne env t).symbol = "N/A") ∧
    (∀ s', t.symbol = some s' → s' ≠ "" → (priceOne env t).symbol = s') := by
  refine ⟨?_, ?_, ?_, ?_⟩
  · unfold keepByName
    rw [h]
  · cases he : env.tokenPrice t.token_address with
    | ok r => simp [priceOne, he, h, strOr]
    | fail => simp [priceOne, he, h, strOr]
  · intro hs
    cases he : env.tokenPrice t.token_address with
    | ok r => simp [priceOne, he, hs, strOr]
    | fail => simp [priceOne, he, hs, strOr]
  · intro s' hs hne
    cases he : env.tokenPrice t.token_address with
    | ok r => simp [priceOne, he, hs, strOr, hne]
    | fail => simp [priceOne, he, hs, strOr, hne]

/-- Witness for C9 at the concrete nameless token: it passes the name filter
and its entry is named `"Unknown"`. -/
theorem c9_nameless_token_kept_witness :
    keepByName tokNoName = true ∧
    (priceOne envNoName tokNoName).name = "Unknown" :=
  ⟨(c9_nameless_token_kept envNoName tokNoName rfl).1,
   (c9_nameless_token_kept envNoName tokNoName rfl).2.1⟩

/-- Counterexample to C9 as stated: a nameless token that carries a real
symbol ends up in the final portfolio with symbol `"FOO"`, not `"N/A"` — the
claim's symbol clause only holds when the symbol field is missing too. -/
theorem c9_nameless_token_symbol_counterexample :
    tokNoName.name = none ∧
    (fetchTokensAndPrices (some "k") envNoName initialState).1.tokens =
      [priceOne envNoName tokNoName] ∧
    (priceOne envNoName tokNoName).symbol = "FOO" ∧
    (priceOne envNoName tokNoName).symbol ≠ "N/A" := by
  refine ⟨rfl, ?_, by decide, by decide⟩
  rw [fetchTokensAndPrices_ok (some "k") envNoName initialState rfl rfl rfl]
  have hfil : [tokNoName].filter keepByName = [tokNoName] := by decide
  have hq : parseFloat "5" = JSNum.num 5 := by decide
  have heth : mkEthToken 0 1 = none := by
    norm_num [mkEthToken, minTotal]
  have hjge : JSNum.jge (priceOne envNoName tokNoName).total minTotal
      = true := by
    simp only [priceOne,
      show envNoName.tokenPrice tokNoName.token_address
        = Fetch.ok (some 1) from rfl,
      show tokNoName.balance = "5" from rfl,
      show tokNoName.decimals = 0 from rfl, hq, JSNum.jdivPow10, JSNum.jmul,
      JSNum.jge, minTotal]
    norm_num
  simp [hfil, heth, hjge]
